import Mathlib

/-!
Verification of the metadata sidecar subsystem of this repository.

The Go sources are shallowly embedded as follows:

* paths and persisted string values are `List Char` (`Path`);
* the backing VFS is a partial map from paths to abstract file contents
  (`FS`); the contents of a sidecar file are abstracted by what the JSON
  layer can observe of them: a payload that decodes to a record
  (`Content.record`), a zero-byte payload (`Content.empty`), a non-empty
  undecodable payload (`Content.corrupt`), and a payload whose read fails
  with an I/O error (`Content.unreadable`);
* the VFS file primitives (ReadFile, Create, Write, Close, Rename,
  Remove) live outside this source slice, so they are modelled from the
  spec's narrow file-access contract as atomic operations on `FS`, with
  explicit fault-injection flags (`Faults`) for the fallible steps of
  `Save`;
* `time.Time` values are modelled as `Nat` and the RFC3339 UTC rendering
  is abstracted to an injective numeral rendering (`fmtTime`): no claim
  below depends on the concrete shape of a timestamp string, only on
  which fields are present and on value round-trips of octal modes.
-/

namespace RcloneMeta

/-- Paths and persisted string values are lists of characters. -/
abbrev Path := List Char

/-- Coerce a Lean string literal to a `Path`. -/
def str (s : String) : Path := s.data

/-- Model of Go `strings.HasSuffix`. -/
def hasSuffix (p suffix : Path) : Bool :=
  decide (suffix.length ≤ p.length) && decide (p.drop (p.length - suffix.length) = suffix)

/-- Model of Go `strings.TrimSuffix`: removes one trailing occurrence of the suffix. -/
def trimSuffix (p suffix : Path) : Path :=
  if hasSuffix p suffix then p.take (p.length - suffix.length) else p

/-- Model of `PosixMeta` from `vfs/posixmeta_sidecar.go`: six optional string fields. -/
structure PosixMeta where
  mode : Option Path := none
  uid : Option Path := none
  gid : Option Path := none
  mtime : Option Path := none
  atime : Option Path := none
  btime : Option Path := none
deriving DecidableEq

/-- The zero `PosixMeta` value (Go `PosixMeta{}`). -/
def emptyMeta : PosixMeta := {}

/-- Model of `PosixAnyFieldSet` from `vfs/posixmeta_sidecar.go`. -/
def PosixAnyFieldSet (m : PosixMeta) : Bool :=
  m.mode.isSome || m.uid.isSome || m.gid.isSome || m.mtime.isSome || m.atime.isSome || m.btime.isSome

/-- Abstract contents of a file on the backing VFS, as observable by the
store: a payload decoding to a record, a zero-byte payload, a non-empty
undecodable payload, or a payload whose read fails with an I/O error. -/
inductive Content where
  | record (m : PosixMeta)
  | empty
  | corrupt
  | unreadable
deriving DecidableEq

/-- The backing VFS file system: a partial map from paths to contents. -/
def FS := Path → Option Content

/-- Write (create or overwrite) a file. -/
def FS.set (fs : FS) (p : Path) (c : Content) : FS :=
  fun q => if q = p then some c else fs q

/-- Remove a file. -/
def FS.del (fs : FS) (p : Path) : FS :=
  fun q => if q = p then none else fs q

/-- The file system with no files. -/
def emptyFS : FS := fun _ => none

/-- Error values observable from the store and the adapters. -/
inductive Err where
  | notFound
  | decodeErr
  | ioErr
  | encodeErr
  | enosys
deriving DecidableEq

/-- Model of `PosixMetaStore` from `vfs/posixmeta_sidecar.go`; the `Vfs` pointer is
passed separately as an explicit `FS` state. -/
structure PosixMetaStore where
  ext : Path

/-- Model of `PosixMetaStore.IsSidecarPath` from `vfs/posixmeta_sidecar.go`. -/
def PosixMetaStore.IsSidecarPath (s : PosixMetaStore) (p : Path) : Bool :=
  if s.ext = [] then false else hasSuffix p s.ext

/-- Model of `PosixMetaStore.metaPath` from `vfs/posixmeta_sidecar.go`. -/
def PosixMetaStore.metaPath (s : PosixMetaStore) (p : Path) : Path :=
  p ++ (if s.ext = [] then str ".posixmeta" else s.ext)

/-- Model of `PosixMetaStore.Load` from `vfs/posixmeta_sidecar.go`.

Modelled from the spec: the `Vfs.ReadFile` primitive is not part of this
source slice; per the spec's error taxonomy its "file does not exist"
error is classified as `notFound` and a read failure on an existing file
as `ioErr`. The `empty` and `corrupt` branches translate the in-slice
length-zero check and `json.Unmarshal` failure. -/
def PosixMetaStore.Load (s : PosixMetaStore) (fs : FS) (path : Path) : Except Err PosixMeta :=
  if s.IsSidecarPath path then .error .notFound
  else
    match fs (s.metaPath path) with
    | none => .error .notFound
    | some .unreadable => .error .ioErr
    | some .empty => .error .notFound
    | some .corrupt => .error .decodeErr
    | some (.record m) => .ok m

/-- The `cur, _ := s.Load(ctx, path)` step of `Save`: the load error is
discarded and the zero record used in its place. -/
def PosixMetaStore.loadOrEmpty (s : PosixMetaStore) (fs : FS) (path : Path) : PosixMeta :=
  match s.Load fs path with
  | .ok c => c
  | .error _ => emptyMeta

/-- The six field-level merge assignments of `Save`: a present incoming
field overwrites the current one, an absent one keeps it. -/
def mergeMeta (cur m : PosixMeta) : PosixMeta :=
  { mode := if m.mode.isSome then m.mode else cur.mode
    uid := if m.uid.isSome then m.uid else cur.uid
    gid := if m.gid.isSome then m.gid else cur.gid
    mtime := if m.mtime.isSome then m.mtime else cur.mtime
    atime := if m.atime.isSome then m.atime else cur.atime
    btime := if m.btime.isSome then m.btime else cur.btime }

/-- Fault-injection flags for the fallible steps of `Save`: `Vfs.Create`,
`json.Marshal`, `w.Write`, `w.Close` and `Vfs.Rename`. -/
structure Faults where
  createErr : Bool
  marshalErr : Bool
  writeErr : Bool
  closeErr : Bool
  renameErr : Bool
deriving DecidableEq

/-- The fault assignment under which every step succeeds. -/
def noFaults : Faults := ⟨false, false, false, false, false⟩

/-- Model of `PosixMetaStore.Save` from `vfs/posixmeta_sidecar.go`.

Returns the result, the final file system, and the list of intermediate
file-system states after each VFS mutation (so that what a concurrent
reader could observe at any point is statable). The cleanup `Remove(tmp)`
calls on the failure paths translate the `_ = s.Vfs.Remove(tmp)` lines.

Modelled from the spec: `Vfs.Create` creates the temporary path as an
empty file, `w.Write` makes the encoded payload visible at the temporary
path, and `Vfs.Rename` atomically moves it onto the sidecar path. -/
def PosixMetaStore.Save (s : PosixMetaStore) (fl : Faults) (fs : FS) (path : Path)
    (m : PosixMeta) : Except Err Unit × FS × List FS :=
  if s.IsSidecarPath path then (.ok (), fs, [])
  else
    let merged := mergeMeta (s.loadOrEmpty fs path) m
    let p := s.metaPath path
    let tmp := p ++ str ".tmp"
    if fl.createErr then (.error .ioErr, fs, [])
    else
      let fs1 := fs.set tmp .empty
      if fl.marshalErr then
        let fs2 := fs1.del tmp
        (.error .encodeErr, fs2, [fs1, fs2])
      else if fl.writeErr then
        let fs2 := fs1.del tmp
        (.error .ioErr, fs2, [fs1, fs2])
      else
        let fs2 := fs1.set tmp (.record merged)
        if fl.closeErr then
          let fs3 := fs2.del tmp
          (.error .ioErr, fs3, [fs1, fs2, fs3])
        else if fl.renameErr then
          let fs3 := fs2.del tmp
          (.error .ioErr, fs3, [fs1, fs2, fs3])
        else
          let fs3 := (fs2.del tmp).set p (.record merged)
          (.ok (), fs3, [fs1, fs2, fs3])

/-- Modelled from the spec: the `Vfs.Remove` primitive is not part of this
source slice; per the spec's idempotent-delete statement, removing a path
that does not exist is success, and removing an existing path deletes it. -/
def vfsRemove (fs : FS) (p : Path) : Except Err Unit × FS :=
  match fs p with
  | none => (.ok (), fs)
  | some _ => (.ok (), fs.del p)

/-- Modelled from the spec: the `Vfs.Rename` primitive is not part of this
source slice; it atomically moves the source's contents onto the
destination and fails when the source does not exist. -/
def vfsRename (fs : FS) (src dst : Path) : Except Err Unit × FS :=
  match fs src with
  | none => (.error .notFound, fs)
  | some c => (.ok (), (fs.del src).set dst c)

/-- Model of `PosixMetaStore.Delete` from `vfs/posixmeta_sidecar.go`. -/
def PosixMetaStore.Delete (s : PosixMetaStore) (fs : FS) (path : Path) :
    Except Err Unit × FS :=
  if s.IsSidecarPath path then (.ok (), fs)
  else vfsRemove fs (s.metaPath path)

/-- Model of `PosixMetaStore.Rename` from `vfs/posixmeta_sidecar.go`: the `Stat`
of the old sidecar path is modelled as a lookup in the file map. -/
def PosixMetaStore.Rename (s : PosixMetaStore) (fs : FS) (oldPath newPath : Path) :
    Except Err Unit × FS :=
  if s.IsSidecarPath oldPath || s.IsSidecarPath newPath then (.ok (), fs)
  else
    let oldM := s.metaPath oldPath
    let newM := s.metaPath newPath
    match fs oldM with
    | none => (.ok (), fs)
    | some _ => vfsRename fs oldM newM

/-- Numeric value of a decimal digit character, if it is one. -/
def digitVal (c : Char) : Option Nat :=
  if '0' ≤ c ∧ c ≤ '9' then some (c.toNat - '0'.toNat) else none

/-- Accumulate the digits of a numeral in the given base; `none` on a
character that is not a digit below the base. -/
def parseDigits (base : Nat) (s : Path) : Option Nat :=
  s.foldl
    (fun acc c =>
      match acc with
      | none => none
      | some n =>
        match digitVal c with
        | some d => if d < base then some (n * base + d) else none
        | none => none)
    (some 0)

/-- Model of Go `strconv.ParseUint(s, base, 32)`: fails on an empty
string, on an invalid digit, and on overflow of 32 bits. -/
def parseUint32 (base : Nat) (s : Path) : Option Nat :=
  if s = [] then none
  else
    match parseDigits base s with
    | some n => if n < 4294967296 then some n else none
    | none => none

/-- Model of `FormatPosixMode` from `vfs/posixmeta_sidecar.go`: the Go `os.FileMode`
argument is a `uint32`, modelled as a `Nat` reduced modulo `2^32`; the
bit fiddling clears the `0xF000` type nibble and sets `S_IFDIR`/`S_IFREG`,
and the result is rendered in octal by `strconv.FormatUint(_, 8)`. -/
def FormatPosixMode (m : Nat) (isDir : Bool) : Path :=
  let mode := m % 4294967296
  let mode :=
    if isDir then (mode &&& 0xFFFF0FFF) ||| 0x4000
    else (mode &&& 0xFFFF0FFF) ||| 0x8000
  Nat.toDigits 8 mode

/-- Model of `ParsePosixMode` from `vfs/posixmeta_sidecar.go`: parse failure yields
the zero mode. -/
def ParsePosixMode (s : Path) : Nat :=
  match parseUint32 8 s with
  | some u => u
  | none => 0

/-- Model of Go `strconv.FormatUint(n, 10)`. -/
def formatDec (n : Nat) : Path := Nat.toDigits 10 n

/-- Model of `t.UTC().Format(time.RFC3339)`: `time.Time` is modelled as a
`Nat` and the RFC3339 rendering is abstracted to an injective numeral
rendering; no claim depends on the concrete shape of a timestamp string. -/
def fmtTime (t : Nat) : Path := Nat.toDigits 10 t

/-- Model of `ParsePosixTime` from `vfs/posixmeta_sidecar.go` under the same time
model: an empty string or a parse failure yields the zero time. -/
def ParsePosixTime (s : Path) : Nat :=
  if s = [] then 0
  else
    match parseDigits 10 s with
    | some t => t
    | none => 0

/-- Model of `sidecarStore` from `vfs/metadata_sidecar.go` (generic variant); only
its naming rule is needed by the claims. -/
structure sidecarStore where
  ext : Path

/-- Model of `sidecarStore.name` from `vfs/metadata_sidecar.go`. -/
def sidecarStore.name (s : sidecarStore) (p : Path) : Path :=
  trimSuffix p (str "/") ++ s.ext

/-- The VFS options consulted by the overlay adapters. -/
structure VfsOpt where
  uid : Nat
  gid : Nat
  persistMetadata : Bool
  posixMetadataExtension : Path
  noModTime : Bool

/-- The base attributes of a live VFS node, as read by the mount `Attr`
handler before any overlay. -/
structure BaseNode where
  mode : Nat
  size : Nat
  modTime : Nat

/-- The FUSE attribute structure filled in by the mount `Attr` handler. -/
structure FuseAttr where
  uid : Nat
  gid : Nat
  mode : Nat
  size : Nat
  blocks : Nat
  atime : Nat
  mtime : Nat
  ctime : Nat
deriving DecidableEq

/-- Model of `File.Attr` from `cmd/mount/file.go`: fills the base attributes from
the live node (clearing the Go `os.ModeAppend` bit, `1 <<< 30`), then, when
persistence is on and the path is not a sidecar path, overlays the fields
present in a successfully loaded record; `Ctime` is deliberately never
overlaid. The handler itself always returns success. -/
def mountAttr (opt : VfsOpt) (fs : FS) (path : Path) (base : BaseNode) :
    Option Err × FuseAttr :=
  let size := base.size
  let blocks := (size + 511) / 512
  let a0 : FuseAttr :=
    { uid := opt.uid
      gid := opt.gid
      mode := base.mode &&& 0xBFFFFFFF
      size := size
      blocks := blocks
      atime := base.modTime
      mtime := base.modTime
      ctime := base.modTime }
  let a :=
    if opt.persistMetadata then
      let store : PosixMetaStore := ⟨opt.posixMetadataExtension⟩
      if store.IsSidecarPath path then a0
      else
        match store.Load fs path with
        | .error _ => a0
        | .ok m =>
          let a1 := match m.mode with
            | some v => { a0 with mode := ParsePosixMode v }
            | none => a0
          let a2 := match m.uid with
            | some v =>
              match parseUint32 10 v with
              | some u => { a1 with uid := u }
              | none => a1
            | none => a1
          let a3 := match m.gid with
            | some v =>
              match parseUint32 10 v with
              | some g => { a2 with gid := g }
              | none => a2
            | none => a2
          let a4 := match m.atime with
            | some v =>
              let t := ParsePosixTime v
              if t ≠ 0 then { a3 with atime := t } else a3
            | none => a3
          let a5 := match m.mtime with
            | some v =>
              let t := ParsePosixTime v
              if t ≠ 0 then { a4 with mtime := t } else a4
            | none => a4
          a5
    else a0
  (none, a)

/-- The validity flags and values of a FUSE `SetattrRequest`. -/
structure SetattrReq where
  vSize : Bool
  vMode : Bool
  vUid : Bool
  vGid : Bool
  vAtime : Bool
  vAtimeNow : Bool
  vMtime : Bool
  vMtimeNow : Bool
  size : Nat
  mode : Nat
  uid : Nat
  gid : Nat
  atime : Nat
  mtime : Nat

/-- Fault-injection flags for the live mutations done by `Setattr`. -/
structure LiveFaults where
  truncateErr : Bool
  setModTimeErr : Bool

/-- Model of `File.Setattr` from `cmd/mount/file.go`: applies the live truncate and
mod-time mutations with Go's `if err == nil { err = e }` accumulation,
then, when persistence is on and the path is not a sidecar path, builds a
partial record out of exactly the request's valid fields and saves it,
ignoring the save error. Returns the accumulated live error, the file
system after any save, and the record passed to `Save` (if any). -/
def mountSetattr (opt : VfsOpt) (lf : LiveFaults) (now : Nat) (fs : FS) (path : Path)
    (req : SetattrReq) : Option Err × FS × Option PosixMeta :=
  let err : Option Err := none
  let err :=
    if req.vSize then
      let e := if lf.truncateErr then some Err.ioErr else none
      if err = none then e else err
    else err
  let err :=
    if !opt.noModTime then
      if req.vMtime then
        let e := if lf.setModTimeErr then some Err.ioErr else none
        if err = none then e else err
      else if req.vMtimeNow then
        let e := if lf.setModTimeErr then some Err.ioErr else none
        if err = none then e else err
      else err
    else err
  if opt.persistMetadata then
    let store : PosixMetaStore := ⟨opt.posixMetadataExtension⟩
    if store.IsSidecarPath path then (err, fs, none)
    else
      let m : PosixMeta :=
        { mode := if req.vMode then some (FormatPosixMode req.mode false) else none
          uid := if req.vUid then some (formatDec req.uid) else none
          gid := if req.vGid then some (formatDec req.gid) else none
          atime :=
            if req.vAtime then some (fmtTime req.atime)
            else if req.vAtimeNow then some (fmtTime now) else none
          mtime :=
            if req.vMtime then some (fmtTime req.mtime)
            else if req.vMtimeNow then some (fmtTime now) else none
          btime := none }
      if PosixAnyFieldSet m then
        let r := store.Save noFaults fs path m
        (err, r.2.1, some m)
      else (err, fs, none)
  else (err, fs, none)

/-- Outcome of the live `file.Chmod` call in the network-share adapter. -/
inductive ChmodRes where
  | ok
  | enosys
  | fail
deriving DecidableEq

/-- Model of `FS.Chmod` from `cmd/serve/nfs/filesystem.go`: opens the file, applies
the live chmod (masking `ENOSYS` to success), and only when the resulting
error is nil and persistence is on and the path is not a sidecar path,
saves a record holding exactly the requested mode. Returns the error, the
file system after any save, and the record passed to `Save` (if any). -/
def nfsChmod (opt : VfsOpt) (openErr : Bool) (res : ChmodRes) (fs : FS) (name : Path)
    (mode : Nat) : Option Err × FS × Option PosixMeta :=
  if openErr then (some .ioErr, fs, none)
  else
    let e : Option Err :=
      match res with
      | .ok => none
      | .enosys => some .enosys
      | .fail => some .ioErr
    let e := if e = some Err.enosys then none else e
    if e = none && opt.persistMetadata then
      let store : PosixMetaStore := ⟨opt.posixMetadataExtension⟩
      if store.IsSidecarPath name then (e, fs, none)
      else
        let v := FormatPosixMode mode false
        let m : PosixMeta := { emptyMeta with mode := some v }
        let r := store.Save noFaults fs name m
        (e, r.2.1, some m)
    else (e, fs, none)

/-- Model of `FS.Chown` from `cmd/serve/nfs/filesystem.go`: opens the file, applies
the live chown, and only when it succeeded and persistence is on and the
path is not a sidecar path, saves a record holding exactly the requested
uid and gid. -/
def nfsChown (opt : VfsOpt) (openErr chownErr : Bool) (fs : FS) (name : Path)
    (uid gid : Nat) : Option Err × FS × Option PosixMeta :=
  if openErr then (some .ioErr, fs, none)
  else
    let e : Option Err := if chownErr then some .ioErr else none
    if e = none && opt.persistMetadata then
      let store : PosixMetaStore := ⟨opt.posixMetadataExtension⟩
      if store.IsSidecarPath name then (e, fs, none)
      else
        let u := formatDec uid
        let g := formatDec gid
        let m : PosixMeta := { emptyMeta with uid := some u, gid := some g }
        let r := store.Save noFaults fs name m
        (e, r.2.1, some m)
    else (e, fs, none)

/-- Model of `FS.Chtimes` from `cmd/serve/nfs/filesystem.go`: applies the live
chtimes, and only when it succeeded and persistence is on and the path is
not a sidecar path, saves a record holding exactly the requested atime
and mtime. -/
def nfsChtimes (opt : VfsOpt) (chtimesErr : Bool) (fs : FS) (name : Path)
    (atime mtime : Nat) : Option Err × FS × Option PosixMeta :=
  let e : Option Err := if chtimesErr then some .ioErr else none
  if e = none && opt.persistMetadata then
    let store : PosixMetaStore := ⟨opt.posixMetadataExtension⟩
    if store.IsSidecarPath name then (e, fs, none)
    else
      let a := fmtTime atime
      let m := fmtTime mtime
      let meta : PosixMeta := { emptyMeta with atime := some a, mtime := some m }
      let r := store.Save noFaults fs name meta
      (e, r.2.1, some meta)
  else (e, fs, none)

/-- The base file info of a live VFS node as seen by the network-share
`Stat` handler before any overlay. -/
structure BaseFi where
  mode : Nat
  modTime : Nat

/-- The attribute view the network-share `Stat` handler reports: the
`Sys()` uid/gid set by `setSys` plus the mode and mod-time of the
(possibly overlay-wrapped) file info. -/
structure FiView where
  uid : Nat
  gid : Nat
  mode : Nat
  modTime : Nat
deriving DecidableEq

/-- Model of `setSys` from `cmd/serve/nfs/filesystem.go`, restricted to the uid/gid
it computes: VFS defaults, overridden by a successfully loaded record's
parsable uid/gid fields. -/
def nfsSetSys (opt : VfsOpt) (fs : FS) (path : Path) : Nat × Nat :=
  let u0 := opt.uid
  let g0 := opt.gid
  if opt.persistMetadata then
    let store : PosixMetaStore := ⟨opt.posixMetadataExtension⟩
    if store.IsSidecarPath path then (u0, g0)
    else
      match store.Load fs path with
      | .error _ => (u0, g0)
      | .ok m =>
        let u1 := match m.uid with
          | some v =>
            match parseUint32 10 v with
            | some u => u
            | none => u0
          | none => u0
        let g1 := match m.gid with
          | some v =>
            match parseUint32 10 v with
            | some g => g
            | none => g0
          | none => g0
        (u1, g1)
  else (u0, g0)

/-- Model of `withOverlayFileInfo` from `cmd/serve/nfs/filesystem.go`, applied to
the mode/mod-time view: a present mode field always overrides; a present
mtime field overrides only when it parses to a nonzero time. -/
def withOverlayFileInfo (mode modTime : Nat) (m : PosixMeta) : Nat × Nat :=
  let mo := match m.mode with
    | some v => ParsePosixMode v
    | none => mode
  let mt := match m.mtime with
    | some v =>
      let t := ParsePosixTime v
      if t ≠ 0 then t else modTime
    | none => modTime
  (mo, mt)

/-- Model of `FS.Stat` from `cmd/serve/nfs/filesystem.go`: fails when the base
`vfs.Stat` fails; otherwise runs `setSys` and then, when persistence is on
and the path is not a sidecar path and the load succeeds, wraps the file
info in the mode/mod-time overlay. -/
def nfsStat (opt : VfsOpt) (fs : FS) (filename : Path) (statRes : Option BaseFi) :
    Except Err FiView :=
  match statRes with
  | none => .error .ioErr
  | some fi =>
    let ug := nfsSetSys opt fs filename
    let mm :=
      if opt.persistMetadata then
        let store : PosixMetaStore := ⟨opt.posixMetadataExtension⟩
        if store.IsSidecarPath filename then (fi.mode, fi.modTime)
        else
          match store.Load fs filename with
          | .error _ => (fi.mode, fi.modTime)
          | .ok m => withOverlayFileInfo fi.mode fi.modTime m
      else (fi.mode, fi.modTime)
    .ok { uid := ug.1, gid := ug.2, mode := mm.1, modTime := mm.2 }

/-! ### Helper lemmas -/

theorem hasSuffix_append (p e : Path) : hasSuffix (p ++ e) e = true := by
  simp [hasSuffix, List.drop_left]

theorem trimSuffix_append (p e : Path) : trimSuffix (p ++ e) e = p := by
  simp [trimSuffix, hasSuffix_append, List.take_left]

theorem append_ne_self (p q : Path) (h : q ≠ []) : p ++ q ≠ p := by
  intro hEq
  have hLen := congrArg List.length hEq
  simp [List.length_append] at hLen
  exact h hLen

theorem metaPath_eq (s : PosixMetaStore) (p : Path) (h : s.ext ≠ []) :
    s.metaPath p = p ++ s.ext := by
  simp [PosixMetaStore.metaPath, h]

theorem isSidecar_metaPath (s : PosixMetaStore) (p : Path) (h : s.ext ≠ []) :
    s.IsSidecarPath (s.metaPath p) = true := by
  simp [PosixMetaStore.IsSidecarPath, metaPath_eq s p h, h, hasSuffix_append]

theorem tmp_ne_metaPath (s : PosixMetaStore) (path : Path) :
    s.metaPath path ++ str ".tmp" ≠ s.metaPath path :=
  append_ne_self _ _ (by decide)

theorem load_congr (s : PosixMetaStore) (fs fs' : FS) (path : Path)
    (h : fs' (s.metaPath path) = fs (s.metaPath path)) :
    s.Load fs' path = s.Load fs path := by
  unfold PosixMetaStore.Load
  rw [h]

theorem load_set_tmp (s : PosixMetaStore) (fs : FS) (path : Path) (c : Content) :
    s.Load (FS.set fs (s.metaPath path ++ str ".tmp") c) path = s.Load fs path := by
  apply load_congr
  simp [FS.set, Ne.symm (tmp_ne_metaPath s path)]

theorem load_del_tmp (s : PosixMetaStore) (fs : FS) (path : Path) :
    s.Load (FS.del fs (s.metaPath path ++ str ".tmp")) path = s.Load fs path := by
  apply load_congr
  simp [FS.del, Ne.symm (tmp_ne_metaPath s path)]

theorem load_set_meta (s : PosixMetaStore) (fs : FS) (path : Path)
    (hns : s.IsSidecarPath path = false) (mm : PosixMeta) :
    s.Load (FS.set fs (s.metaPath path) (.record mm)) path = .ok mm := by
  simp [PosixMetaStore.Load, hns, FS.set]

/-! ### Shared concrete fixtures for witnesses and counterexamples -/

/-- A store with the default `.posixmeta` suffix. -/
def stPM : PosixMetaStore := ⟨str ".posixmeta"⟩

/-- The record `{mode:"100644"}`. -/
def mMode644 : PosixMeta := { emptyMeta with mode := some (str "100644") }

/-- The record `{uid:"1000"}`. -/
def mUid1000 : PosixMeta := { emptyMeta with uid := some (str "1000") }

/-- The record `{mode:"100644", uid:"1000"}`. -/
def mMode644Uid1000 : PosixMeta :=
  { emptyMeta with
      mode := some (str "100644")
      uid := some (str "1000") }

/-- A file system holding one sidecar record `{mode:"100644"}` for path `f`. -/
def fsMode644 : FS :=
  FS.set emptyFS (stPM.metaPath (str "f")) (.record mMode644)

/-- A file system holding one corrupt sidecar payload for path `f`. -/
def fsCorrupt : FS :=
  FS.set emptyFS (stPM.metaPath (str "f")) .corrupt

/-- The fault assignment under which only the write step fails. -/
def writeFault : Faults := ⟨false, false, true, false, false⟩

/-! ### Claims -/

/-- C2: for a non-empty configured suffix and any path, the sidecar path of
any path is itself classified as a sidecar path, and `Load`, `Save`,
`Rename`, `Delete` with a sidecar path as primary argument are no-ops:
`Save`/`Rename`/`Delete` succeed leaving the file system untouched, and
`Load` returns NotFound for every file-system state. -/
theorem claim2_recursion_guard (s : PosixMetaStore) (hext : s.ext ≠ [])
    (p q : Path) (fs : FS) (fl : Faults) (m : PosixMeta) :
    s.IsSidecarPath (s.metaPath p) = true ∧
    s.Load fs (s.metaPath p) = .error .notFound ∧
    s.Save fl fs (s.metaPath p) m = (.ok (), fs, []) ∧
    s.Delete fs (s.metaPath p) = (.ok (), fs) ∧
    s.Rename fs (s.metaPath p) q = (.ok (), fs) := by
  have hs := isSidecar_metaPath s p hext
  refine ⟨hs, ?_, ?_, ?_, ?_⟩ <;>
    simp [PosixMetaStore.Load, PosixMetaStore.Save, PosixMetaStore.Delete,
      PosixMetaStore.Rename, hs]

/-- Witness for C2 at the default suffix and concrete paths. -/
theorem claim2_recursion_guard_witness :
    stPM.ext ≠ [] ∧
    (stPM.IsSidecarPath (stPM.metaPath (str "f")) = true ∧
    stPM.Load emptyFS (stPM.metaPath (str "f")) = .error .notFound ∧
    stPM.Save noFaults emptyFS (stPM.metaPath (str "f")) emptyMeta = (.ok (), emptyFS, []) ∧
    stPM.Delete emptyFS (stPM.metaPath (str "f")) = (.ok (), emptyFS) ∧
    stPM.Rename emptyFS (stPM.metaPath (str "f")) (str "g") = (.ok (), emptyFS)) :=
  ⟨by decide, claim2_recursion_guard stPM (by decide) (str "f") (str "g") emptyFS noFaults emptyMeta⟩

/-- C4: `Delete` on a non-sidecar path whose sidecar file does not exist
returns success and leaves the file system untouched. -/
theorem claim4_delete_idempotent (s : PosixMetaStore) (fs : FS) (path : Path)
    (hns : s.IsSidecarPath path = false)
    (hmiss : fs (s.metaPath path) = none) :
    s.Delete fs path = (.ok (), fs) := by
  simp [PosixMetaStore.Delete, hns, vfsRemove, hmiss]

/-- Witness for C4 on the empty file system. -/
theorem claim4_delete_idempotent_witness :
    stPM.IsSidecarPath (str "f") = false ∧
    emptyFS (stPM.metaPath (str "f")) = none ∧
    stPM.Delete emptyFS (str "f") = (.ok (), emptyFS) :=
  ⟨by decide, rfl, claim4_delete_idempotent stPM emptyFS (str "f") (by decide) rfl⟩

/-- C7: on a non-sidecar path, a missing sidecar file and a zero-byte
sidecar file both make `Load` return NotFound, while a non-empty
undecodable payload surfaces as a decode error. -/
theorem claim7_load_empty_notfound (s : PosixMetaStore) (fs : FS) (path : Path)
    (hns : s.IsSidecarPath path = false) :
    (fs (s.metaPath path) = none → s.Load fs path = .error .notFound) ∧
    (fs (s.metaPath path) = some .empty → s.Load fs path = .error .notFound) ∧
    (fs (s.metaPath path) = some .corrupt → s.Load fs path = .error .decodeErr) := by
  refine ⟨fun h => ?_, fun h => ?_, fun h => ?_⟩ <;>
    simp [PosixMetaStore.Load, hns, h]

/-- Witness for C7: a missing, an empty, and a corrupt sidecar for three paths. -/
theorem claim7_load_empty_notfound_witness :
    stPM.IsSidecarPath (str "f") = false ∧
    (stPM.Load emptyFS (str "f") = .error .notFound ∧
      stPM.Load (FS.set emptyFS (stPM.metaPath (str "f")) .empty) (str "f")
        = .error .notFound ∧
      stPM.Load (FS.set emptyFS (stPM.metaPath (str "f")) .corrupt) (str "f")
        = .error .decodeErr) :=
  ⟨by decide,
    (claim7_load_empty_notfound stPM emptyFS (str "f") (by decide)).1 rfl,
    (claim7_load_empty_notfound stPM (FS.set emptyFS (stPM.metaPath (str "f")) .empty)
      (str "f") (by decide)).2.1 (by simp [FS.set]),
    (claim7_load_empty_notfound stPM (FS.set emptyFS (stPM.metaPath (str "f")) .corrupt)
      (str "f") (by decide)).2.2 (by simp [FS.set])⟩

/-- C9: `FormatPosixMode 0o644 false` renders `"100644"`,
`FormatPosixMode 0o755 true` renders `"40755"`, and `ParsePosixMode` of
each output reproduces the permission bits together with the
regular-file (`0o100000`) resp. directory (`0o40000`) type bit. -/
theorem claim9_mode_codec :
    FormatPosixMode 0o644 false = str "100644" ∧
    FormatPosixMode 0o755 true = str "40755" ∧
    ParsePosixMode (FormatPosixMode 0o644 false) = 0o100000 + 0o644 ∧
    ParsePosixMode (FormatPosixMode 0o755 true) = 0o40000 + 0o755 := by
  refine ⟨by decide, by decide, by decide, by decide⟩

theorem mergeMeta_empty (m : PosixMeta) : mergeMeta emptyMeta m = m := by
  obtain ⟨f1, f2, f3, f4, f5, f6⟩ := m
  cases f1 <;> cases f2 <;> cases f3 <;> cases f4 <;> cases f5 <;> cases f6 <;> rfl

/-- C3: `Save` persists the field-level merge of the current record with
the incoming one; each merged field takes the incoming value when
present, else the current one; in particular saving `{uid:"1000"}` over a
persisted `{mode:"100644"}` yields `{mode:"100644", uid:"1000"}`. -/
theorem claim3_merge_on_save (s : PosixMetaStore) (fs : FS) (path : Path)
    (m cur : PosixMeta) (hns : s.IsSidecarPath path = false) :
    ((s.Save noFaults fs path m).2.1 (s.metaPath path)
      = some (.record (mergeMeta (s.loadOrEmpty fs path) m))) ∧
    ((mergeMeta cur m).mode = (if m.mode.isSome then m.mode else cur.mode) ∧
      (mergeMeta cur m).uid = (if m.uid.isSome then m.uid else cur.uid) ∧
      (mergeMeta cur m).gid = (if m.gid.isSome then m.gid else cur.gid) ∧
      (mergeMeta cur m).mtime = (if m.mtime.isSome then m.mtime else cur.mtime) ∧
      (mergeMeta cur m).atime = (if m.atime.isSome then m.atime else cur.atime) ∧
      (mergeMeta cur m).btime = (if m.btime.isSome then m.btime else cur.btime)) ∧
    ((stPM.Save noFaults fsMode644 (str "f") mUid1000).2.1 (stPM.metaPath (str "f"))
      = some (.record mMode644Uid1000)) := by
  refine ⟨?_, ⟨rfl, rfl, rfl, rfl, rfl, rfl⟩, by decide⟩
  simp [PosixMetaStore.Save, hns, noFaults, FS.set]

/-- Witness for C3: the merged record is persisted for a concrete store,
file system and incoming record. -/
theorem claim3_merge_on_save_witness :
    stPM.IsSidecarPath (str "f") = false ∧
    (stPM.Save noFaults fsMode644 (str "f") mUid1000).2.1 (stPM.metaPath (str "f"))
      = some (.record (mergeMeta (stPM.loadOrEmpty fsMode644 (str "f")) mUid1000)) :=
  ⟨by decide,
    (claim3_merge_on_save stPM fsMode644 (str "f") mUid1000 emptyMeta (by decide)).1⟩

/-- C10: `Save` on a non-sidecar path ignores every `Load` error — decode
errors and I/O errors as much as NotFound — and proceeds from the empty
current record, so a fault-free `Save` over an unloadable sidecar
succeeds and persists exactly the incoming record's present fields. -/
theorem claim10_save_discards_unloadable (s : PosixMetaStore) (fs : FS) (path : Path)
    (m : PosixMeta) (e : Err) (hns : s.IsSidecarPath path = false)
    (hLoad : s.Load fs path = .error e) :
    (s.Save noFaults fs path m).1 = .ok () ∧
    (s.Save noFaults fs path m).2.1 (s.metaPath path) = some (.record m) := by
  have hcur : s.loadOrEmpty fs path = emptyMeta := by
    simp [PosixMetaStore.loadOrEmpty, hLoad]
  constructor
  · simp [PosixMetaStore.Save, hns, noFaults]
  · simp [PosixMetaStore.Save, hns, noFaults, FS.set, hcur, mergeMeta_empty]

/-- Witness for C10 on a corrupt sidecar: the save succeeds and the prior
content is replaced by exactly the incoming record. -/
theorem claim10_save_discards_unloadable_witness :
    stPM.IsSidecarPath (str "f") = false ∧
    stPM.Load fsCorrupt (str "f") = .error .decodeErr ∧
    (stPM.Save noFaults fsCorrupt (str "f") mUid1000).1 = .ok () ∧
    (stPM.Save noFaults fsCorrupt (str "f") mUid1000).2.1 (stPM.metaPath (str "f"))
      = some (.record mUid1000) := by
  refine ⟨by decide, by rfl, ?_, ?_⟩
  · exact (claim10_save_discards_unloadable stPM fsCorrupt (str "f") mUid1000 .decodeErr
      (by decide) (by rfl)).1
  · exact (claim10_save_discards_unloadable stPM fsCorrupt (str "f") mUid1000 .decodeErr
      (by decide) (by rfl)).2

theorem save_trace_observation (s : PosixMetaStore) (fl : Faults) (fs : FS)
    (path : Path) (m : PosixMeta) (hns : s.IsSidecarPath path = false) :
    ∀ fs' ∈ (s.Save fl fs path m).2.2,
      s.Load fs' path = s.Load fs path ∨
      s.Load fs' path = .ok (mergeMeta (s.loadOrEmpty fs path) m) := by
  intro fs' hmem
  obtain ⟨cE, mE, wE, clE, rE⟩ := fl
  cases cE <;> cases mE <;> cases wE <;> cases clE <;> cases rE <;>
      simp [PosixMetaStore.Save, hns] at hmem <;>
    (rcases hmem with rfl | rfl | rfl) <;>
    (first
      | exact Or.inl (by simp only [load_del_tmp, load_set_tmp])
      | exact Or.inr (load_set_meta s _ path hns _))

theorem save_failure_cleanup (s : PosixMetaStore) (fl : Faults) (fs : FS)
    (path : Path) (m : PosixMeta) (hns : s.IsSidecarPath path = false)
    (hc : fl.createErr = false)
    (hf : (fl.marshalErr || fl.writeErr || fl.closeErr || fl.renameErr) = true) :
    (∃ e, (s.Save fl fs path m).1 = .error e) ∧
    (s.Save fl fs path m).2.1 (s.metaPath path ++ str ".tmp") = none ∧
    s.Load (s.Save fl fs path m).2.1 path = s.Load fs path := by
  obtain ⟨cE, mE, wE, clE, rE⟩ := fl
  cases cE <;> cases mE <;> cases wE <;> cases clE <;> cases rE <;>
    first
      | exact absurd hc (by decide)
      | exact absurd hf (by decide)
      | simp [PosixMetaStore.Save, hns, FS.del, load_del_tmp, load_set_tmp]

/-- C1: when the create step of `Save` succeeds and any later step fails
(encode, write, close or rename), `Save` returns an error, the temporary
path is absent from the final state, and a subsequent `Load` returns the
pre-`Save` record unchanged; moreover in every intermediate state of the
run a reader of the tracked path observes either the prior record or the
new merged record, never anything else. -/
theorem claim1_save_failure_atomicity (s : PosixMetaStore) (fl : Faults) (fs : FS)
    (path : Path) (m : PosixMeta)
    (hns : s.IsSidecarPath path = false) (hc : fl.createErr = false) :
    (∀ fs' ∈ (s.Save fl fs path m).2.2,
        s.Load fs' path = s.Load fs path ∨
        s.Load fs' path = .ok (mergeMeta (s.loadOrEmpty fs path) m)) ∧
    ((fl.marshalErr || fl.writeErr || fl.closeErr || fl.renameErr) = true →
        (∃ e, (s.Save fl fs path m).1 = .error e) ∧
        (s.Save fl fs path m).2.1 (s.metaPath path ++ str ".tmp") = none ∧
        s.Load (s.Save fl fs path m).2.1 path = s.Load fs path) :=
  ⟨save_trace_observation s fl fs path m hns,
    fun hf => save_failure_cleanup s fl fs path m hns hc hf⟩

/-- Witness for C1: a write failure over an existing `{mode:"100644"}`
record returns an error, leaves no temporary file, and leaves the prior
record loadable. -/
theorem claim1_save_failure_atomicity_witness :
    stPM.IsSidecarPath (str "f") = false ∧
    writeFault.createErr = false ∧
    ((∀ fs' ∈ (stPM.Save writeFault fsMode644 (str "f") mUid1000).2.2,
        stPM.Load fs' (str "f") = stPM.Load fsMode644 (str "f") ∨
        stPM.Load fs' (str "f")
          = .ok (mergeMeta (stPM.loadOrEmpty fsMode644 (str "f")) mUid1000)) ∧
      ((writeFault.marshalErr || writeFault.writeErr || writeFault.closeErr ||
          writeFault.renameErr) = true →
        (∃ e, (stPM.Save writeFault fsMode644 (str "f") mUid1000).1 = .error e) ∧
        (stPM.Save writeFault fsMode644 (str "f") mUid1000).2.1
          (stPM.metaPath (str "f") ++ str ".tmp") = none ∧
        stPM.Load (stPM.Save writeFault fsMode644 (str "f") mUid1000).2.1 (str "f")
          = stPM.Load fsMode644 (str "f"))) :=
  ⟨by decide, by decide,
    claim1_save_failure_atomicity stPM writeFault fsMode644 (str "f") mUid1000
      (by decide) (by decide)⟩

/-- Counterexample to C6 as stated: the specialized POSIX store appends
the suffix without stripping a trailing separator, so `dir/` and `dir`
map to different sidecar paths and the stated stripping equation fails. -/
theorem claim6_counterexample :
    stPM.metaPath (str "dir/") ≠ stPM.metaPath (str "dir") ∧
    stPM.metaPath (str "dir/") ≠ trimSuffix (str "dir/") (str "/") ++ stPM.ext :=
  ⟨by decide, by decide⟩

/-- C6 (amended): the generic store strips one trailing separator before
appending its suffix, so `p ++ "/"` and a separator-free `p` share a
sidecar name; the specialized POSIX store appends its (non-empty) suffix
directly to the tracked path without stripping. -/
theorem claim6_sidecar_naming (s : PosixMetaStore) (g : sidecarStore) (p : Path)
    (hext : s.ext ≠ []) :
    g.name (p ++ str "/") = p ++ g.ext ∧
    (hasSuffix p (str "/") = false → g.name p = p ++ g.ext) ∧
    s.metaPath p = p ++ s.ext := by
  refine ⟨?_, fun h => ?_, metaPath_eq s p hext⟩
  · simp [sidecarStore.name, trimSuffix_append]
  · simp [sidecarStore.name, trimSuffix, h]

/-- Witness for the amended C6 at a concrete path and the default suffix. -/
theorem claim6_sidecar_naming_witness :
    stPM.ext ≠ [] ∧ hasSuffix (str "dir") (str "/") = false ∧
    ((sidecarStore.name ⟨str ".posixmeta"⟩ (str "dir" ++ str "/")
        = str "dir" ++ str ".posixmeta") ∧
      sidecarStore.name ⟨str ".posixmeta"⟩ (str "dir") = str "dir" ++ str ".posixmeta" ∧
      stPM.metaPath (str "dir") = str "dir" ++ stPM.ext) :=
  ⟨by decide, by decide,
    (claim6_sidecar_naming stPM ⟨str ".posixmeta"⟩ (str "dir") (by decide)).1,
    (claim6_sidecar_naming stPM ⟨str ".posixmeta"⟩ (str "dir") (by decide)).2.1 (by decide),
    (claim6_sidecar_naming stPM ⟨str ".posixmeta"⟩ (str "dir") (by decide)).2.2⟩

/-- The adapter options used in concrete runs: persistence on, default
suffix, mod-time updates enabled. -/
def optPM : VfsOpt := ⟨0, 0, true, str ".posixmeta", false⟩

/-- A `Setattr` request specifying only an mtime update. -/
def reqMtimeOnly : SetattrReq :=
  ⟨false, false, false, false, false, false, true, false, 0, 0, 0, 0, 0, 5⟩

/-- Counterexample to C5 as stated: in the mount `Setattr` handler a
failing live `SetModTime` leaves the returned error non-nil, yet the
sidecar save is still performed with the request's mtime field. -/
theorem claim5_counterexample :
    (mountSetattr optPM ⟨false, true⟩ 0 emptyFS (str "f") reqMtimeOnly).1
      = some Err.ioErr ∧
    (mountSetattr optPM ⟨false, true⟩ 0 emptyFS (str "f") reqMtimeOnly).2.2
      = some { emptyMeta with mtime := some (fmtTime 5) } :=
  ⟨by decide, by decide⟩

theorem if_some_inj {c : Prop} [Decidable c] {a b : PosixMeta}
    (h : (if c then some a else none) = some b) : a = b := by
  split at h
  · exact Option.some.inj h
  · exact absurd h (by simp)

/-- C5 (amended): every record handed to the sidecar `Save` by an
attribute-mutating adapter contains exactly the fields the request
specified (never the merged result); the network-share handlers
(`Chmod`/`Chown`/`Chtimes`) perform the save only when the live mutation
succeeded (for `Chmod`: succeeded or was masked not-implemented), while
the mount `Setattr` handler builds the same request-only record but
performs the save regardless of the live mutation's outcome. -/
theorem claim5_writeback_fields (opt : VfsOpt) (lf : LiveFaults) (now : Nat) (fs : FS)
    (path : Path) (req : SetattrReq) (openErr chownErr chtimesErr : Bool)
    (res : ChmodRes) (mode uid gid atime mtime : Nat) :
    (∀ mRec, (mountSetattr opt lf now fs path req).2.2 = some mRec →
        mRec.mode.isSome = req.vMode ∧
        mRec.uid.isSome = req.vUid ∧
        mRec.gid.isSome = req.vGid ∧
        mRec.atime.isSome = (req.vAtime || req.vAtimeNow) ∧
        mRec.mtime.isSome = (req.vMtime || req.vMtimeNow) ∧
        mRec.btime = none) ∧
    (∀ mRec, (nfsChmod opt openErr res fs path mode).2.2 = some mRec →
        openErr = false ∧ res ≠ ChmodRes.fail ∧
        mRec = { emptyMeta with mode := some (FormatPosixMode mode false) }) ∧
    (∀ mRec, (nfsChown opt openErr chownErr fs path uid gid).2.2 = some mRec →
        openErr = false ∧ chownErr = false ∧
        mRec = { emptyMeta with uid := some (formatDec uid), gid := some (formatDec gid) }) ∧
    (∀ mRec, (nfsChtimes opt chtimesErr fs path atime mtime).2.2 = some mRec →
        chtimesErr = false ∧
        mRec = { emptyMeta with atime := some (fmtTime atime), mtime := some (fmtTime mtime) }) := by
  refine ⟨?_, ?_, ?_, ?_⟩
  · intro mRec h
    unfold mountSetattr at h
    by_cases hp : opt.persistMetadata = true
    · simp only [hp, if_true] at h
      by_cases hs : (PosixMetaStore.IsSidecarPath ⟨opt.posixMetadataExtension⟩ path) = true
      · simp [hs] at h
      · simp only [Bool.not_eq_true] at hs
        simp only [hs] at h
        simp only [apply_ite Prod.snd] at h
        obtain rfl := if_some_inj h
        refine ⟨?_, ?_, ?_, ?_, ?_, rfl⟩
        · cases req.vMode <;> rfl
        · cases req.vUid <;> rfl
        · cases req.vGid <;> rfl
        · cases req.vAtime <;> cases req.vAtimeNow <;> rfl
        · cases req.vMtime <;> cases req.vMtimeNow <;> rfl
    · simp only [Bool.not_eq_true] at hp
      simp [hp] at h
  · intro mRec h
    cases openErr
    · unfold nfsChmod at h
      cases res
      · by_cases hp : opt.persistMetadata = true
        · simp only [hp] at h
          by_cases hs : (PosixMetaStore.IsSidecarPath ⟨opt.posixMetadataExtension⟩ path) = true
          · simp [hs] at h
          · simp only [Bool.not_eq_true] at hs
            simp only [hs] at h
            simp at h
            exact ⟨rfl, by decide, h.symm⟩
        · simp only [Bool.not_eq_true] at hp
          simp [hp] at h
      · by_cases hp : opt.persistMetadata = true
        · simp only [hp] at h
          by_cases hs : (PosixMetaStore.IsSidecarPath ⟨opt.posixMetadataExtension⟩ path) = true
          · simp [hs] at h
          · simp only [Bool.not_eq_true] at hs
            simp only [hs] at h
            simp at h
            exact ⟨rfl, by decide, h.symm⟩
        · simp only [Bool.not_eq_true] at hp
          simp [hp] at h
      · simp at h
    · simp [nfsChmod] at h
  · intro mRec h
    cases openErr
    · cases chownErr
      · unfold nfsChown at h
        by_cases hp : opt.persistMetadata = true
        · simp only [hp] at h
          by_cases hs : (PosixMetaStore.IsSidecarPath ⟨opt.posixMetadataExtension⟩ path) = true
          · simp [hs] at h
          · simp only [Bool.not_eq_true] at hs
            simp only [hs] at h
            simp at h
            exact ⟨rfl, rfl, h.symm⟩
        · simp only [Bool.not_eq_true] at hp
          simp [hp] at h
      · simp [nfsChown] at h
    · simp [nfsChown] at h
  · intro mRec h
    cases chtimesErr
    · unfold nfsChtimes at h
      by_cases hp : opt.persistMetadata = true
      · simp only [hp] at h
        by_cases hs : (PosixMetaStore.IsSidecarPath ⟨opt.posixMetadataExtension⟩ path) = true
        · simp [hs] at h
        · simp only [Bool.not_eq_true] at hs
          simp only [hs] at h
          simp at h
          exact ⟨rfl, h.symm⟩
      · simp only [Bool.not_eq_true] at hp
        simp [hp] at h
    · simp [nfsChtimes] at h


/-- Witness for the amended C5: one concrete run of each adapter in which
the save happens, with the saved record's fields as specified. -/
theorem claim5_writeback_fields_witness :
    (({ emptyMeta with mtime := some (fmtTime 5) } : PosixMeta).mtime.isSome
        = (reqMtimeOnly.vMtime || reqMtimeOnly.vMtimeNow)) ∧
    (false = false ∧ ChmodRes.ok ≠ ChmodRes.fail ∧
      ({ emptyMeta with mode := some (FormatPosixMode 420 false) } : PosixMeta)
        = { emptyMeta with mode := some (FormatPosixMode 420 false) }) ∧
    (false = false ∧ false = false ∧
      ({ emptyMeta with uid := some (formatDec 1000), gid := some (formatDec 1000) } : PosixMeta)
        = { emptyMeta with uid := some (formatDec 1000), gid := some (formatDec 1000) }) ∧
    (false = false ∧
      ({ emptyMeta with atime := some (fmtTime 3), mtime := some (fmtTime 4) } : PosixMeta)
        = { emptyMeta with atime := some (fmtTime 3), mtime := some (fmtTime 4) }) :=
  ⟨((claim5_writeback_fields optPM ⟨false, true⟩ 0 emptyFS (str "f") reqMtimeOnly
      false false false ChmodRes.ok 420 1000 1000 3 4).1
      { emptyMeta with mtime := some (fmtTime 5) } (by decide)).2.2.2.2.1,
    (claim5_writeback_fields optPM ⟨false, true⟩ 0 emptyFS (str "f") reqMtimeOnly
      false false false ChmodRes.ok 420 1000 1000 3 4).2.1
      { emptyMeta with mode := some (FormatPosixMode 420 false) } (by decide),
    (claim5_writeback_fields optPM ⟨false, true⟩ 0 emptyFS (str "f") reqMtimeOnly
      false false false ChmodRes.ok 420 1000 1000 3 4).2.2.1
      { emptyMeta with uid := some (formatDec 1000), gid := some (formatDec 1000) } (by decide),
    (claim5_writeback_fields optPM ⟨false, true⟩ 0 emptyFS (str "f") reqMtimeOnly
      false false false ChmodRes.ok 420 1000 1000 3 4).2.2.2
      { emptyMeta with atime := some (fmtTime 3), mtime := some (fmtTime 4) } (by decide)⟩

/-- C8: if the sidecar load fails with any error, the mount `Attr` query
and the network-share `Stat` query still succeed and report exactly the
base attributes of the live object (what they report with persistence
disabled); a load failure never fails the attribute query. -/
theorem claim8_load_error_degrades (opt : VfsOpt) (fs : FS) (path : Path)
    (base : BaseNode) (fi : BaseFi) (e : Err)
    (hLoad : PosixMetaStore.Load ⟨opt.posixMetadataExtension⟩ fs path = .error e) :
    (mountAttr opt fs path base).1 = none ∧
    (mountAttr opt fs path base).2
      = (mountAttr { opt with persistMetadata := false } fs path base).2 ∧
    nfsStat opt fs path (some fi)
      = .ok { uid := opt.uid, gid := opt.gid, mode := fi.mode, modTime := fi.modTime } := by
  refine ⟨rfl, ?_, ?_⟩
  · unfold mountAttr
    by_cases hp : opt.persistMetadata = true
    · simp only [hp, if_true]
      by_cases hs : (PosixMetaStore.IsSidecarPath ⟨opt.posixMetadataExtension⟩ path) = true
      · simp [hs]
      · simp only [Bool.not_eq_true] at hs
        simp [hs, hLoad]
    · simp only [Bool.not_eq_true] at hp
      simp [hp]
  · unfold nfsStat nfsSetSys
    by_cases hp : opt.persistMetadata = true
    · simp only [hp, if_true]
      by_cases hs : (PosixMetaStore.IsSidecarPath ⟨opt.posixMetadataExtension⟩ path) = true
      · simp [hs]
      · simp only [Bool.not_eq_true] at hs
        simp [hs, hLoad]
    · simp only [Bool.not_eq_true] at hp
      simp [hp]

/-- Witness for C8: a missing sidecar (NotFound load error) leaves both
queries reporting the base attributes. -/
theorem claim8_load_error_degrades_witness :
    PosixMetaStore.Load ⟨optPM.posixMetadataExtension⟩ emptyFS (str "f")
      = .error .notFound ∧
    ((mountAttr optPM emptyFS (str "f") ⟨420, 1024, 7⟩).1 = none ∧
      (mountAttr optPM emptyFS (str "f") ⟨420, 1024, 7⟩).2
        = (mountAttr { optPM with persistMetadata := false } emptyFS (str "f")
            ⟨420, 1024, 7⟩).2 ∧
      nfsStat optPM emptyFS (str "f") (some ⟨420, 7⟩)
        = .ok { uid := optPM.uid, gid := optPM.gid, mode := 420, modTime := 7 }) :=
  ⟨rfl,
    claim8_load_error_degrades optPM emptyFS (str "f") ⟨420, 1024, 7⟩ ⟨420, 7⟩
      .notFound rfl⟩

end RcloneMeta
